import Mathlib

/-!
Shallow embedding of the Atlas game-server core (src/api/server.js):
rooms, players, the four socket handlers (createRoom, joinRoom, startGame,
submitPlace) and the disconnect handler, together with the registry of
rooms.  The place-name validity oracle (`isValidPlace`, backed by the
external country-state-city dataset) is treated as an injected capability
`isValid : String → Bool`, as the design prescribes.  JS string operations
are modelled per code point over `String.data`.
-/

namespace Atlas

/-- JS `String.prototype.toLowerCase`, modelled per code point. -/
def jsToLower (s : String) : String := String.mk (s.data.map Char.toLower)

/-- JS `String.prototype.toUpperCase`, modelled per code point. -/
def jsToUpper (s : String) : String := String.mk (s.data.map Char.toUpper)

/-- JS `String.prototype.trim`: strip whitespace from both ends. -/
def jsTrim (s : String) : String :=
  String.mk (((s.data.dropWhile Char.isWhitespace).reverse.dropWhile
    Char.isWhitespace).reverse)

/-- JS `String.prototype.charAt i`: the one-character string at index `i`,
or the empty string when `i` is out of range. -/
def jsCharAt (s : String) (i : Nat) : String :=
  String.mk ((s.data.drop i).take 1)

/-- A room member: `{ id: socket.id, username, score: 0 }`. -/
structure Player where
  id : String
  username : String
  score : Nat
  deriving DecidableEq, Repr

/-- One accepted play: `{ player, place, timestamp }`. -/
structure HistoryEntry where
  player : String
  place : String
  timestamp : Nat
  deriving DecidableEq, Repr

/-- The per-room game state created by `createGameRoom`. -/
structure Room where
  players : List Player
  history : List HistoryEntry
  currentPlayerIndex : Nat
  letterInPlay : String
  started : Bool
  deriving DecidableEq, Repr

/-- The `gameRooms` object: a finite map from room identifier to room,
modelled as an association list with JS-object (unique-key) update and
delete semantics. -/
abbrev Registry := List (String × Room)

/-- JS property read `gameRooms[roomId]`. -/
def lookupRoom : Registry → String → Option Room
  | [], _ => none
  | (k, v) :: rest, rid => if k = rid then some v else lookupRoom rest rid

/-- JS property write `gameRooms[roomId] = room` (insert or overwrite). -/
def setRoom (rooms : Registry) (rid : String) (r : Room) : Registry :=
  (rid, r) :: (rooms.filter fun p => p.1 ≠ rid)

/-- JS `delete gameRooms[roomId]`. -/
def removeRoom (rooms : Registry) (rid : String) : Registry :=
  rooms.filter fun p => p.1 ≠ rid

/-- JS `Array.prototype.findIndex`, with `none` for `-1`. -/
def findIndex {α : Type} (p : α → Bool) : List α → Option Nat
  | [] => none
  | a :: as => if p a then some 0 else (findIndex p as).map (· + 1)

/-- An outbound event, by target: `socket.emit` to one connection or
`io.to(roomId).emit` to a room.  Payloads are omitted; only targeting is
claimed about. -/
inductive Emit where
  | toSocket (socketId : String) (event : String)
  | toRoom (roomId : String) (event : String)
  deriving DecidableEq, Repr

/-- A handler's effect: the updated registry and the events it emitted. -/
structure HandlerResult where
  rooms : Registry
  emits : List Emit
  deriving DecidableEq, Repr

/-- The rejection reasons of the `submitPlace` handler. -/
inductive SubmitError where
  | NotYourTurn
  | InvalidPlace
  | WrongLetter
  | AlreadyUsed
  deriving DecidableEq, Repr

/-- Outcome of the room-level part of `submitPlace`.  `crash` is the case
`room.players[room.currentPlayerIndex]` is `undefined`, where the JS
handler throws a TypeError before any mutation. -/
inductive SubmitOutcome where
  | crash
  | rejected (err : SubmitError)
  | accepted (room : Room)
  deriving DecidableEq, Repr

/-- Map the accepted room of an outcome. -/
def SubmitOutcome.mapRoom (f : Room → Room) : SubmitOutcome → SubmitOutcome
  | .accepted r => .accepted (f r)
  | o => o

/-- The room-level logic of the `submitPlace` handler (server.js lines
176–213), parameterised by the external validity oracle.  The source
reassigns `placeName = placeName.trim()` before checks 2–4; here the
trimmed name `jsTrim placeName` is written out at each use. -/
def submitPlace (isValid : String → Bool) (socketId placeName : String)
    (now : Nat) (room : Room) : SubmitOutcome :=
  match room.players[room.currentPlayerIndex]? with
  | none => .crash
  | some currentPlayer =>
    if currentPlayer.id ≠ socketId then
      .rejected .NotYourTurn
    else if isValid (jsTrim placeName) = false then
      .rejected .InvalidPlace
    else if room.letterInPlay ≠ "" ∧
        jsToLower (jsCharAt (jsTrim placeName) 0) ≠
          jsToLower room.letterInPlay then
      .rejected .WrongLetter
    else if room.history.any
        (fun entry => jsToLower entry.place == jsToLower (jsTrim placeName)) then
      .rejected .AlreadyUsed
    else
      .accepted { room with
        letterInPlay := jsToUpper (jsCharAt (jsTrim placeName)
          ((jsTrim placeName).length - 1))
        history := room.history ++
          [⟨currentPlayer.username, jsTrim placeName, now⟩]
        players := room.players.set room.currentPlayerIndex
          { currentPlayer with score := currentPlayer.score + 1 }
        currentPlayerIndex :=
          (room.currentPlayerIndex + 1) % room.players.length }

/-- The room-level effect of the `startGame` handler:
`room.started = true; room.letterInPlay = ''`. -/
def startGameRoom (room : Room) : Room :=
  { room with started := true, letterInPlay := "" }

/-- Result of `joinRoom` as acknowledged to the caller. -/
inductive JoinResult where
  | roomNotFound
  | gameAlreadyStarted
  | joined
  deriving DecidableEq, Repr

/-- The `joinRoom` handler (server.js lines 125–159): room lookup, the
started guard, then appending a fresh player with score 0. -/
def joinRoom (rooms : Registry) (rid socketId username : String) :
    Registry × JoinResult :=
  match lookupRoom rooms rid with
  | none => (rooms, .roomNotFound)
  | some room =>
    if room.started then
      (rooms, .gameAlreadyStarted)
    else
      (setRoom rooms rid
        { room with players := room.players ++ [⟨socketId, username, 0⟩] },
       .joined)

/-- The `createRoom` handler (server.js lines 105–123) combined with
`createGameRoom`: store a fresh empty room under the given identifier,
then push the creator with score 0.  The identifier comes from the
injected id generator. -/
def createRoomOp (rooms : Registry) (rid socketId username : String) :
    Registry :=
  setRoom rooms rid
    { players := [⟨socketId, username, 0⟩]
      history := []
      currentPlayerIndex := 0
      letterInPlay := ""
      started := false }

/-- The `startGame` handler (server.js lines 161–170), including the
`if (!roomId || !gameRooms[roomId]) return;` guard.  `boundRoomId` is the
connection's `socket.roomId` (`none` when never set); the `rid = ""`
branch models JS falsiness of the empty string. -/
def handleStartGame (rooms : Registry) (boundRoomId : Option String) :
    HandlerResult :=
  match boundRoomId with
  | none => ⟨rooms, []⟩
  | some rid =>
    if rid = "" then ⟨rooms, []⟩
    else
      match lookupRoom rooms rid with
      | none => ⟨rooms, []⟩
      | some room =>
        ⟨setRoom rooms rid (startGameRoom room), [.toRoom rid "gameStarted"]⟩

/-- The `submitPlace` handler (server.js lines 172–214) at session level:
the bound-room guard, then the room-level logic, with the emits the code
performs in each case. -/
def handleSubmitPlace (isValid : String → Bool) (rooms : Registry)
    (boundRoomId : Option String) (socketId placeName : String) (now : Nat) :
    HandlerResult :=
  match boundRoomId with
  | none => ⟨rooms, []⟩
  | some rid =>
    if rid = "" then ⟨rooms, []⟩
    else
      match lookupRoom rooms rid with
      | none => ⟨rooms, []⟩
      | some room =>
        match submitPlace isValid socketId placeName now room with
        | .crash => ⟨rooms, []⟩
        | .rejected _ => ⟨rooms, [.toSocket socketId "error"]⟩
        | .accepted r => ⟨setRoom rooms rid r, [.toRoom rid "updateGame"]⟩

/-- The `disconnect` handler (server.js lines 216–239): find the player
by socket id, splice it out, repair the turn index, and delete the room
when it became empty. -/
def handleDisconnect (rooms : Registry) (boundRoomId : Option String)
    (socketId : String) : HandlerResult :=
  match boundRoomId with
  | none => ⟨rooms, []⟩
  | some rid =>
    if rid = "" then ⟨rooms, []⟩
    else
      match lookupRoom rooms rid with
      | none => ⟨rooms, []⟩
      | some room =>
        match findIndex (fun p => p.id == socketId) room.players with
        | none => ⟨rooms, []⟩
        | some i =>
          let players := room.players.eraseIdx i
          let cpi :=
            if i ≤ room.currentPlayerIndex ∧ 0 < room.currentPlayerIndex then
              room.currentPlayerIndex - 1
            else
              room.currentPlayerIndex
          if players.isEmpty then
            ⟨removeRoom rooms rid, []⟩
          else
            ⟨setRoom rooms rid
              { room with players := players, currentPlayerIndex := cpi },
             [.toRoom rid "playerLeft"]⟩

/-- One inbound event handled atomically against the registry.  The bound
room identifier, socket id, validator answers and payloads are chosen
arbitrarily, so every behaviour of the real server is included. -/
inductive Step : Registry → Registry → Prop where
  | createStep (rooms : Registry) (rid sid u : String) :
      Step rooms (createRoomOp rooms rid sid u)
  | joinStep (rooms : Registry) (rid sid u : String) :
      Step rooms (joinRoom rooms rid sid u).1
  | startStep (rooms : Registry) (orid : Option String) :
      Step rooms (handleStartGame rooms orid).rooms
  | submitStep (isValid : String → Bool) (rooms : Registry)
      (orid : Option String) (sid place : String) (now : Nat) :
      Step rooms (handleSubmitPlace isValid rooms orid sid place now).rooms
  | disconnectStep (rooms : Registry) (orid : Option String) (sid : String) :
      Step rooms (handleDisconnect rooms orid sid).rooms

/-- Registry states reachable from the empty registry at process start. -/
def Reachable (rooms : Registry) : Prop :=
  Relation.ReflTransGen Step [] rooms

/-- The per-room invariant maintained by every handler: a registered room
has at least one player, a turn index inside `players`, and no two
history entries with case-insensitively equal places. -/
def GoodRoom (room : Room) : Prop :=
  room.players ≠ [] ∧
  room.currentPlayerIndex < room.players.length ∧
  room.history.Pairwise (fun a b => jsToLower a.place ≠ jsToLower b.place)

instance (room : Room) : Decidable (GoodRoom room) := by
  unfold GoodRoom
  infer_instance

/-- The registry invariant: every registered room is good. -/
def RegistryInv (rooms : Registry) : Prop :=
  ∀ p ∈ rooms, GoodRoom p.2

/-- A stand-in for the external validity oracle: a fixed allow-list, as
the design notes suggest for test doubles. -/
def demoValid : String → Bool :=
  fun s => s == "Argentina" || s == "Albania"

/-- A one-player room still in the lobby (as right after `createRoom`). -/
def demoLobby : Room :=
  { players := [⟨"s1", "alice", 0⟩], history := [], currentPlayerIndex := 0,
    letterInPlay := "", started := false }

/-- The room `demoLobby` after an accepted submission of "Argentina". -/
def demoLobbyAfter : Room :=
  { players := [⟨"s1", "alice", 1⟩],
    history := [⟨"alice", "Argentina", 7⟩],
    currentPlayerIndex := 0, letterInPlay := "A", started := false }

/-- A started two-player room with the letter A in play. -/
def demoStarted : Room :=
  { players := [⟨"s1", "alice", 0⟩, ⟨"s2", "bob", 0⟩], history := [],
    currentPlayerIndex := 0, letterInPlay := "A", started := true }

/-- A started room with no letter in play yet. -/
def demoStartedEmpty : Room :=
  { players := [⟨"s1", "alice", 0⟩, ⟨"s2", "bob", 0⟩], history := [],
    currentPlayerIndex := 0, letterInPlay := "", started := true }

/-- A registry holding `demoStarted` under identifier "r1". -/
def demoRegistry : Registry := [("r1", demoStarted)]

/-- A registry holding `demoLobby` under identifier "r1". -/
def demoLobbyRegistry : Registry := [("r1", demoLobby)]

/-- The room produced by `createRoomOp` for socket "s1". -/
def demoRoom1 : Room :=
  { players := [⟨"s1", "alice", 0⟩], history := [], currentPlayerIndex := 0,
    letterInPlay := "", started := false }

/-- The registry after one `createRoom` from the empty registry. -/
def demoReach1 : Registry := createRoomOp [] "r1" "s1" "alice"

theorem mem_setRoom {q : String × Room} {rooms : Registry} {rid : String}
    {r : Room} (h : q ∈ setRoom rooms rid r) : q = (rid, r) ∨ q ∈ rooms := by
  rcases List.mem_cons.mp h with h | h
  · exact Or.inl h
  · exact Or.inr (List.mem_filter.mp h).1

theorem mem_removeRoom {q : String × Room} {rooms : Registry} {rid : String}
    (h : q ∈ removeRoom rooms rid) : q ∈ rooms :=
  (List.mem_filter.mp h).1

theorem lookupRoom_mem {rooms : Registry} {rid : String} {room : Room}
    (h : lookupRoom rooms rid = some room) : (rid, room) ∈ rooms := by
  induction rooms with
  | nil => simp [lookupRoom] at h
  | cons q rest ih =>
    rw [show lookupRoom (q :: rest) rid =
        if q.1 = rid then some q.2 else lookupRoom rest rid from rfl] at h
    split at h
    · rename_i heq
      cases h
      exact List.mem_cons.mpr (Or.inl (by cases q; simp_all))
    · exact List.mem_cons.mpr (Or.inr (ih h))

theorem lookupRoom_setRoom_self (rooms : Registry) (rid : String) (r : Room) :
    lookupRoom (setRoom rooms rid r) rid = some r := by
  simp [setRoom, lookupRoom]

theorem lookupRoom_removeRoom_self (rooms : Registry) (rid : String) :
    lookupRoom (removeRoom rooms rid) rid = none := by
  induction rooms with
  | nil => rfl
  | cons q rest ih =>
    by_cases hq : q.1 = rid
    · simpa [removeRoom, hq] using ih
    · simpa [removeRoom, lookupRoom, hq] using ih

theorem findIndex_lt_length {α : Type} {p : α → Bool} {l : List α} {i : Nat}
    (h : findIndex p l = some i) : i < l.length := by
  induction l generalizing i with
  | nil => simp [findIndex] at h
  | cons a as ih =>
    rw [show findIndex p (a :: as) =
        if p a then some 0 else (findIndex p as).map (· + 1) from rfl] at h
    split at h
    · cases h; simp
    · rcases Option.map_eq_some'.mp h with ⟨j, hj, rfl⟩
      simpa using Nat.succ_lt_succ (ih hj)

theorem goodRoom_submit {isValid : String → Bool} {sid place : String}
    {now : Nat} {room r : Room} (hg : GoodRoom room)
    (hacc : submitPlace isValid sid place now room = .accepted r) :
    GoodRoom r := by
  unfold submitPlace at hacc
  split at hacc
  · exact absurd hacc (by simp)
  · rename_i currentPlayer hcp
    have hlt : room.currentPlayerIndex < room.players.length :=
      (List.getElem?_eq_some.mp hcp).1
    have hpos : 0 < room.players.length := Nat.lt_of_le_of_lt (Nat.zero_le _) hlt
    split_ifs at hacc with h1 h2 h3 h4
    cases hacc
    unfold GoodRoom
    dsimp only []
    refine ⟨?_, ?_, ?_⟩
    · intro hnil
      have hset := congrArg List.length hnil
      simp only [List.length_set, List.length_nil] at hset
      omega
    · simpa [List.length_set] using Nat.mod_lt _ hpos
    · rw [List.pairwise_append]
      refine ⟨hg.2.2, List.pairwise_singleton _ _, ?_⟩
      intro a ha b hb
      have hnot : ¬ (List.any room.history
          (fun entry => jsToLower entry.place ==
            jsToLower (jsTrim place)) = true) := h4
      rw [List.any_eq_true] at hnot
      push_neg at hnot
      have hna := hnot a ha
      simp only [List.mem_singleton] at hb
      subst hb
      simpa using hna

theorem goodRoom_disconnect {room : Room} {i : Nat}
    (hi : i < room.players.length) (hg : GoodRoom room)
    (hne : ¬ (room.players.eraseIdx i).isEmpty) :
    GoodRoom { room with
                players := room.players.eraseIdx i,
                currentPlayerIndex :=
                  if i ≤ room.currentPlayerIndex ∧
                      0 < room.currentPlayerIndex then
                    room.currentPlayerIndex - 1
                  else room.currentPlayerIndex } := by
  have hlen : (room.players.eraseIdx i).length = room.players.length - 1 :=
    List.length_eraseIdx_of_lt hi
  have hpos : 0 < (room.players.eraseIdx i).length := by
    rw [List.isEmpty_iff] at hne
    exact List.length_pos.mpr hne
  have hcpi : room.currentPlayerIndex < room.players.length := hg.2.1
  refine ⟨List.length_pos.mp hpos, ?_, hg.2.2⟩
  simp only []
  split
  · rename_i hc
    omega
  · rename_i hc
    rw [Classical.not_and_iff_or_not_not] at hc
    omega

theorem goodRoom_new (sid u : String) :
    GoodRoom { players := [⟨sid, u, 0⟩], history := [],
               currentPlayerIndex := 0, letterInPlay := "",
               started := false } :=
  ⟨by simp, by simp, List.Pairwise.nil⟩

theorem registryInv_create (rooms : Registry) (rid sid u : String)
    (hinv : RegistryInv rooms) : RegistryInv (createRoomOp rooms rid sid u) := by
  unfold createRoomOp
  intro p hp
  rcases mem_setRoom hp with rfl | hp
  · exact goodRoom_new sid u
  · exact hinv p hp

theorem goodRoom_append (room : Room) (q : Player) (hg : GoodRoom room) :
    GoodRoom { room with players := room.players ++ [q] } := by
  refine ⟨by simp, ?_, hg.2.2⟩
  dsimp only []
  rw [List.length_append]
  have hcpi := hg.2.1
  omega

theorem registryInv_join (rooms : Registry) (rid sid u : String)
    (hinv : RegistryInv rooms) : RegistryInv (joinRoom rooms rid sid u).1 := by
  unfold joinRoom
  cases hlk : lookupRoom rooms rid with
  | none => exact hinv
  | some room =>
    dsimp only []
    split_ifs with hs
    · exact hinv
    · intro p hp
      rcases mem_setRoom hp with rfl | hp
      · exact goodRoom_append room _ (hinv _ (lookupRoom_mem hlk))
      · exact hinv p hp

theorem registryInv_start (rooms : Registry) (orid : Option String)
    (hinv : RegistryInv rooms) :
    RegistryInv (handleStartGame rooms orid).rooms := by
  unfold handleStartGame
  cases orid with
  | none => exact hinv
  | some rid =>
    dsimp only []
    split_ifs with he
    · exact hinv
    · cases hlk : lookupRoom rooms rid with
      | none => exact hinv
      | some room =>
        intro p hp
        rcases mem_setRoom hp with rfl | hp
        · have hg := hinv _ (lookupRoom_mem hlk)
          exact ⟨hg.1, hg.2.1, hg.2.2⟩
        · exact hinv p hp

theorem registryInv_submit (isValid : String → Bool) (rooms : Registry)
    (orid : Option String) (sid place : String) (now : Nat)
    (hinv : RegistryInv rooms) :
    RegistryInv (handleSubmitPlace isValid rooms orid sid place now).rooms := by
  unfold handleSubmitPlace
  cases orid with
  | none => exact hinv
  | some rid =>
    dsimp only []
    split_ifs with he
    · exact hinv
    · cases hlk : lookupRoom rooms rid with
      | none => exact hinv
      | some room =>
        dsimp only []
        cases hsub : submitPlace isValid sid place now room with
        | crash => exact hinv
        | rejected e => exact hinv
        | accepted r =>
          intro p hp
          rcases mem_setRoom hp with rfl | hp
          · exact goodRoom_submit (hinv _ (lookupRoom_mem hlk)) hsub
          · exact hinv p hp

theorem registryInv_disconnect (rooms : Registry) (orid : Option String)
    (sid : String) (hinv : RegistryInv rooms) :
    RegistryInv (handleDisconnect rooms orid sid).rooms := by
  unfold handleDisconnect
  cases orid with
  | none => exact hinv
  | some rid =>
    dsimp only []
    split_ifs with he
    · exact hinv
    · cases hlk : lookupRoom rooms rid with
      | none => exact hinv
      | some room =>
        dsimp only []
        cases hfi : findIndex (fun p => p.id == sid) room.players with
        | none => exact hinv
        | some i =>
          dsimp only []
          by_cases hemp : (room.players.eraseIdx i).isEmpty = true
          · rw [if_pos hemp]
            intro p hp
            exact hinv p (mem_removeRoom hp)
          · rw [if_neg hemp]
            intro p hp
            rcases mem_setRoom hp with rfl | hp
            · exact goodRoom_disconnect (findIndex_lt_length hfi)
                (hinv _ (lookupRoom_mem hlk)) hemp
            · exact hinv p hp

theorem registryInv_step {rooms rooms' : Registry} (h : Step rooms rooms')
    (hinv : RegistryInv rooms) : RegistryInv rooms' := by
  cases h with
  | createStep rooms rid sid u =>
    exact registryInv_create rooms rid sid u hinv
  | joinStep rooms rid sid u =>
    exact registryInv_join rooms rid sid u hinv
  | startStep rooms orid =>
    exact registryInv_start rooms orid hinv
  | submitStep isValid rooms orid sid place now =>
    exact registryInv_submit isValid rooms orid sid place now hinv
  | disconnectStep rooms orid sid =>
    exact registryInv_disconnect rooms orid sid hinv

theorem reachable_registryInv {rooms : Registry} (h : Reachable rooms) :
    RegistryInv rooms := by
  unfold Reachable at h
  induction h with
  | refl => intro p hp; simp at hp
  | tail hab hbc ih => exact registryInv_step hbc ih

/-- C1: an accepted submission sets `letterInPlay` to the uppercased last
character of the trimmed place name, appends one history entry with the
acting player's username, the trimmed place and the timestamp, bumps the
acting player's score by exactly 1, advances `currentPlayerIndex` to
`(currentPlayerIndex + 1) mod players.length`, and changes nothing else of
the room. -/
theorem claim1_submit_success (isValid : String → Bool)
    (sid place : String) (now : Nat) (room r : Room) (cp : Player)
    (hcp : room.players[room.currentPlayerIndex]? = some cp)
    (hacc : submitPlace isValid sid place now room = .accepted r) :
    r.letterInPlay =
      jsToUpper (jsCharAt (jsTrim place) ((jsTrim place).length - 1)) ∧
    r.history = room.history ++ [⟨cp.username, jsTrim place, now⟩] ∧
    r.players = room.players.set room.currentPlayerIndex
      { cp with score := cp.score + 1 } ∧
    r.currentPlayerIndex =
      (room.currentPlayerIndex + 1) % room.players.length ∧
    r.started = room.started := by
  unfold submitPlace at hacc
  rw [hcp] at hacc
  dsimp only [] at hacc
  split_ifs at hacc
  cases hacc
  exact ⟨rfl, rfl, rfl, rfl, rfl⟩

/-- C1 witness: in a one-player room, submitting " Argentina " (trimmed to
"Argentina") is accepted with letter "A", one appended entry, score 1 and
the turn pointer wrapped to 0. -/
theorem claim1_witness :
    demoLobbyAfter.letterInPlay =
      jsToUpper (jsCharAt (jsTrim " Argentina ")
        ((jsTrim " Argentina ").length - 1)) ∧
    demoLobbyAfter.history = demoLobby.history ++
      [⟨(Player.mk "s1" "alice" 0).username, jsTrim " Argentina ", 7⟩] ∧
    demoLobbyAfter.players = demoLobby.players.set
      demoLobby.currentPlayerIndex
      { Player.mk "s1" "alice" 0 with score := (Player.mk "s1" "alice" 0).score + 1 } ∧
    demoLobbyAfter.currentPlayerIndex =
      (demoLobby.currentPlayerIndex + 1) % demoLobby.players.length ∧
    demoLobbyAfter.started = demoLobby.started :=
  claim1_submit_success demoValid "s1" " Argentina " 7 demoLobby
    demoLobbyAfter (Player.mk "s1" "alice" 0) (by decide) (by decide)

/-- C2: a rejected submission leaves the registry (hence the room's
players, scores, history, turn index, letter and started flag) unchanged
and emits exactly one targeted error to the submitting connection, with
no broadcast to the room. -/
theorem claim2_reject_pure (isValid : String → Bool) (rooms : Registry)
    (rid sid place : String) (now : Nat) (room : Room) (e : SubmitError)
    (hrid : rid ≠ "")
    (hlk : lookupRoom rooms rid = some room)
    (hrej : submitPlace isValid sid place now room = .rejected e) :
    handleSubmitPlace isValid rooms (some rid) sid place now =
      ⟨rooms, [.toSocket sid "error"]⟩ := by
  unfold handleSubmitPlace
  dsimp only []
  rw [if_neg hrid, hlk]
  dsimp only []
  rw [hrej]

/-- C2 witness: in the started room with letter A, a submission by the
non-current player "s2" is rejected and only "s2" is told. -/
theorem claim2_witness :
    handleSubmitPlace demoValid demoRegistry (some "r1") "s2" "Argentina" 7 =
      ⟨demoRegistry, [.toSocket "s2" "error"]⟩ :=
  claim2_reject_pure demoValid demoRegistry "r1" "s2" "Argentina" 7
    demoStarted .NotYourTurn (by decide) (by decide) (by decide)

/-- C3: the checks of `submitPlace` run in the fixed order NotYourTurn,
InvalidPlace (on the trimmed name), WrongLetter (only when a letter is in
play, first character case-insensitively), AlreadyUsed (case-insensitive
equality against each history entry); each rejection reason is reported
exactly when its check is the first to fail. -/
theorem claim3_check_order (isValid : String → Bool)
    (sid place : String) (now : Nat) (room : Room) (cp : Player)
    (hcp : room.players[room.currentPlayerIndex]? = some cp) :
    (submitPlace isValid sid place now room = .rejected .NotYourTurn ↔
      cp.id ≠ sid) ∧
    (submitPlace isValid sid place now room = .rejected .InvalidPlace ↔
      cp.id = sid ∧ isValid (jsTrim place) = false) ∧
    (submitPlace isValid sid place now room = .rejected .WrongLetter ↔
      cp.id = sid ∧ isValid (jsTrim place) = true ∧
      (room.letterInPlay ≠ "" ∧
        jsToLower (jsCharAt (jsTrim place) 0) ≠
          jsToLower room.letterInPlay)) ∧
    (submitPlace isValid sid place now room = .rejected .AlreadyUsed ↔
      cp.id = sid ∧ isValid (jsTrim place) = true ∧
      ¬(room.letterInPlay ≠ "" ∧
        jsToLower (jsCharAt (jsTrim place) 0) ≠
          jsToLower room.letterInPlay) ∧
      room.history.any
        (fun entry =>
          jsToLower entry.place == jsToLower (jsTrim place)) = true) := by
  unfold submitPlace
  rw [hcp]
  dsimp only []
  split_ifs with h1 h2 h3 h4 <;> simp_all

/-- C3 witness: concrete instance of the ordering characterisation, in
the started room with letter A for the current player "s1". -/
theorem claim3_witness :
    (submitPlace demoValid "s1" "Brazil" 7 demoStarted =
        .rejected .NotYourTurn ↔ (Player.mk "s1" "alice" 0).id ≠ "s1") ∧
    (submitPlace demoValid "s1" "Brazil" 7 demoStarted =
        .rejected .InvalidPlace ↔
      (Player.mk "s1" "alice" 0).id = "s1" ∧
        demoValid (jsTrim "Brazil") = false) ∧
    (submitPlace demoValid "s1" "Brazil" 7 demoStarted =
        .rejected .WrongLetter ↔
      (Player.mk "s1" "alice" 0).id = "s1" ∧
        demoValid (jsTrim "Brazil") = true ∧
        (demoStarted.letterInPlay ≠ "" ∧
          jsToLower (jsCharAt (jsTrim "Brazil") 0) ≠
            jsToLower demoStarted.letterInPlay)) ∧
    (submitPlace demoValid "s1" "Brazil" 7 demoStarted =
        .rejected .AlreadyUsed ↔
      (Player.mk "s1" "alice" 0).id = "s1" ∧
        demoValid (jsTrim "Brazil") = true ∧
        ¬(demoStarted.letterInPlay ≠ "" ∧
          jsToLower (jsCharAt (jsTrim "Brazil") 0) ≠
            jsToLower demoStarted.letterInPlay) ∧
        demoStarted.history.any
          (fun entry =>
            jsToLower entry.place == jsToLower (jsTrim "Brazil")) = true) :=
  claim3_check_order demoValid "s1" "Brazil" 7 demoStarted
    (Player.mk "s1" "alice" 0) (by decide)

/-- C4 counterexample: re-invoking `startGame` on a started room with the
letter A in play changes the room — it resets `letterInPlay` to "" — so
re-invocation is not state-preserving as claimed. -/
theorem claim4_counterexample :
    demoStarted.started = true ∧ startGameRoom demoStarted ≠ demoStarted := by
  decide

/-- C4 amended: `startGame` sets `started := true`, resets `letterInPlay`
to the empty sentinel and leaves everything else (in particular
`currentPlayerIndex`) unchanged; on an already-started room it is a
state no-op exactly when `letterInPlay` is already empty, since it
unconditionally re-resets the letter. -/
theorem claim4_start_amended (room : Room) :
    startGameRoom room = { room with started := true, letterInPlay := "" } ∧
    (room.started = true →
      (startGameRoom room = room ↔ room.letterInPlay = "")) := by
  refine ⟨rfl, fun hs => ⟨fun h => ?_, fun h => ?_⟩⟩
  · have hLet := congrArg Room.letterInPlay h
    simpa [startGameRoom] using hLet.symm
  · cases room
    simp_all [startGameRoom]

/-- C4 witness: on a started room with no letter in play, `startGame`
rewrites `started` and `letterInPlay` to their current values and hence
leaves the room unchanged. -/
theorem claim4_witness :
    (startGameRoom demoStartedEmpty =
      { demoStartedEmpty with started := true, letterInPlay := "" }) ∧
    (startGameRoom demoStartedEmpty = demoStartedEmpty ↔
      demoStartedEmpty.letterInPlay = "") :=
  ⟨(claim4_start_amended demoStartedEmpty).1,
   (claim4_start_amended demoStartedEmpty).2 (by decide)⟩

/-- C5 counterexample: `submitPlace` never consults `started`, so in a
lobby room (`started = false`) a submission from the current player with
a valid place is accepted: history grows, the score changes, and
`letterInPlay` changes. -/
theorem claim5_counterexample :
    demoLobby.started = false ∧
    handleSubmitPlace demoValid demoLobbyRegistry (some "r1") "s1"
        "Argentina" 7 =
      ⟨[("r1", demoLobbyAfter)], [.toRoom "r1" "updateGame"]⟩ ∧
    demoLobbyAfter.history ≠ demoLobby.history ∧
    demoLobbyAfter.players ≠ demoLobby.players ∧
    demoLobbyAfter.letterInPlay ≠ demoLobby.letterInPlay := by
  decide

/-- C5 amended: the `submitPlace` handler performs no `started` check at
all: its outcome on a room is the same for either value of `started`
(with the accepted room carrying that flag through unchanged), so a
Lobby submission is accepted or rejected by exactly the same checks as
one after `start`. -/
theorem claim5_submit_ignores_started (isValid : String → Bool)
    (sid place : String) (now : Nat) (room : Room) (b : Bool) :
    submitPlace isValid sid place now { room with started := b } =
      (submitPlace isValid sid place now room).mapRoom
        (fun r => { r with started := b }) := by
  unfold submitPlace
  dsimp only []
  cases hcp : room.players[room.currentPlayerIndex]? with
  | none => rfl
  | some cp =>
    dsimp only []
    split_ifs <;> rfl

/-- C6: `disconnect` for a present player at index `i` removes exactly
that player, repairs the turn pointer by the decrement rule, and when the
room becomes empty destroys it, so a subsequent `joinRoom` with the stale
identifier answers RoomNotFound. -/
theorem claim6_disconnect (rooms : Registry) (rid sid sid2 u : String)
    (room : Room) (i : Nat)
    (hrid : rid ≠ "")
    (hlk : lookupRoom rooms rid = some room)
    (hfi : findIndex (fun p => p.id == sid) room.players = some i) :
    (handleDisconnect rooms (some rid) sid).rooms =
      (if (room.players.eraseIdx i).isEmpty then removeRoom rooms rid
       else setRoom rooms rid
         { room with
            players := room.players.eraseIdx i,
            currentPlayerIndex :=
              if i ≤ room.currentPlayerIndex ∧ 0 < room.currentPlayerIndex
              then room.currentPlayerIndex - 1
              else room.currentPlayerIndex }) ∧
    ((room.players.eraseIdx i).isEmpty →
      lookupRoom (handleDisconnect rooms (some rid) sid).rooms rid = none ∧
      joinRoom (handleDisconnect rooms (some rid) sid).rooms rid sid2 u =
        ((handleDisconnect rooms (some rid) sid).rooms, .roomNotFound)) := by
  have hred : (handleDisconnect rooms (some rid) sid).rooms =
      (if (room.players.eraseIdx i).isEmpty then removeRoom rooms rid
       else setRoom rooms rid
         { room with
            players := room.players.eraseIdx i,
            currentPlayerIndex :=
              if i ≤ room.currentPlayerIndex ∧ 0 < room.currentPlayerIndex
              then room.currentPlayerIndex - 1
              else room.currentPlayerIndex }) := by
    unfold handleDisconnect
    dsimp only []
    rw [if_neg hrid, hlk]
    dsimp only []
    rw [hfi]
    dsimp only []
    split_ifs <;> rfl
  refine ⟨hred, fun hemp => ?_⟩
  rw [hred, if_pos hemp]
  have hnone : lookupRoom (removeRoom rooms rid) rid = none :=
    lookupRoom_removeRoom_self rooms rid
  refine ⟨hnone, ?_⟩
  unfold joinRoom
  rw [hnone]

/-- C6 witness: the sole player of the lobby room disconnects; the room
is destroyed and a later join with "r1" answers RoomNotFound. -/
theorem claim6_witness :
    ((handleDisconnect demoLobbyRegistry (some "r1") "s1").rooms =
      (if (demoLobby.players.eraseIdx 0).isEmpty
       then removeRoom demoLobbyRegistry "r1"
       else setRoom demoLobbyRegistry "r1"
         { demoLobby with
            players := demoLobby.players.eraseIdx 0,
            currentPlayerIndex :=
              if 0 ≤ demoLobby.currentPlayerIndex ∧
                  0 < demoLobby.currentPlayerIndex
              then demoLobby.currentPlayerIndex - 1
              else demoLobby.currentPlayerIndex })) ∧
    lookupRoom (handleDisconnect demoLobbyRegistry (some "r1") "s1").rooms
      "r1" = none ∧
    joinRoom (handleDisconnect demoLobbyRegistry (some "r1") "s1").rooms
        "r1" "s9" "carol" =
      ((handleDisconnect demoLobbyRegistry (some "r1") "s1").rooms,
        .roomNotFound) :=
  ⟨(claim6_disconnect demoLobbyRegistry "r1" "s1" "s9" "carol" demoLobby 0
      (by decide) (by decide) (by decide)).1,
   (claim6_disconnect demoLobbyRegistry "r1" "s1" "s9" "carol" demoLobby 0
      (by decide) (by decide) (by decide)).2 (by decide)⟩

theorem submitPlace_history_pairwise (isValid : String → Bool)
    (sid place : String) (now : Nat) (room r : Room)
    (hp : room.history.Pairwise
      (fun a b => jsToLower a.place ≠ jsToLower b.place))
    (hacc : submitPlace isValid sid place now room = .accepted r) :
    r.history.Pairwise (fun a b => jsToLower a.place ≠ jsToLower b.place) := by
  unfold submitPlace at hacc
  split at hacc
  · exact absurd hacc (by simp)
  · rename_i cp hcp
    split_ifs at hacc with h1 h2 h3 h4
    cases hacc
    dsimp only []
    rw [List.pairwise_append]
    refine ⟨hp, List.pairwise_singleton _ _, ?_⟩
    intro a ha b hb
    rw [List.any_eq_true] at h4
    push_neg at h4
    have hna := h4 a ha
    simp only [List.mem_singleton] at hb
    subst hb
    simpa using hna

/-- C7: in every registry state reachable by create, join, start, submit
and disconnect events, each registered room has either no players or a
turn index in `[0, players.length)`. -/
theorem claim7_turn_index_valid (rooms : Registry) (h : Reachable rooms) :
    ∀ p ∈ rooms, p.2.players = [] ∨
      p.2.currentPlayerIndex < p.2.players.length :=
  fun p hp => Or.inr (reachable_registryInv h p hp).2.1

/-- C7 witness: the invariant instantiated at the registry reached by a
single `createRoom`. -/
theorem claim7_witness :
    ("r1", demoRoom1).2.players = [] ∨
    ("r1", demoRoom1).2.currentPlayerIndex <
      ("r1", demoRoom1).2.players.length :=
  claim7_turn_index_valid demoReach1
    (Relation.ReflTransGen.single (Step.createStep [] "r1" "s1" "alice"))
    ("r1", demoRoom1) (by decide)

/-- C8: in every reachable registry state, no two history entries of the
same room have case-insensitively equal places; and an accepted submit
preserves this property, a duplicate being rejected as AlreadyUsed before
anything is appended. -/
theorem claim8_history_nodup :
    (∀ rooms : Registry, Reachable rooms → ∀ p ∈ rooms,
      p.2.history.Pairwise
        (fun a b => jsToLower a.place ≠ jsToLower b.place)) ∧
    (∀ (isValid : String → Bool) (sid place : String) (now : Nat)
        (room r : Room),
      room.history.Pairwise
        (fun a b => jsToLower a.place ≠ jsToLower b.place) →
      submitPlace isValid sid place now room = .accepted r →
      r.history.Pairwise
        (fun a b => jsToLower a.place ≠ jsToLower b.place)) :=
  ⟨fun _ h p hp => (reachable_registryInv h p hp).2.2,
   fun isValid sid place now room r hp hacc =>
     submitPlace_history_pairwise isValid sid place now room r hp hacc⟩

/-- C8 witness: the invariant at the registry reached by one createRoom,
and preservation across the accepted lobby submission of "Argentina". -/
theorem claim8_witness :
    ("r1", demoRoom1).2.history.Pairwise
      (fun a b => jsToLower a.place ≠ jsToLower b.place) ∧
    demoLobbyAfter.history.Pairwise
      (fun a b => jsToLower a.place ≠ jsToLower b.place) :=
  ⟨claim8_history_nodup.1 demoReach1
      (Relation.ReflTransGen.single (Step.createStep [] "r1" "s1" "alice"))
      ("r1", demoRoom1) (by decide),
   claim8_history_nodup.2 demoValid "s1" "Argentina" 7 demoLobby
      demoLobbyAfter (by decide) (by decide)⟩

/-- C9: `joinRoom` answers RoomNotFound on an unknown identifier and
GameAlreadyStarted on a started room, leaving the registry unchanged in
both cases; otherwise — with no cap on the player count — it appends a
player with score 0 at the end and succeeds. -/
theorem claim9_join (rooms : Registry) (rid sid u : String) :
    (lookupRoom rooms rid = none →
      joinRoom rooms rid sid u = (rooms, .roomNotFound)) ∧
    (∀ room : Room, lookupRoom rooms rid = some room → room.started = true →
      joinRoom rooms rid sid u = (rooms, .gameAlreadyStarted)) ∧
    (∀ room : Room, lookupRoom rooms rid = some room → room.started = false →
      joinRoom rooms rid sid u =
        (setRoom rooms rid
          { room with players := room.players ++ [⟨sid, u, 0⟩] },
         .joined)) := by
  refine ⟨fun h => ?_, fun room h hs => ?_, fun room h hs => ?_⟩
  · unfold joinRoom
    rw [h]
  · unfold joinRoom
    rw [h]
    dsimp only []
    rw [if_pos hs]
  · unfold joinRoom
    rw [h]
    dsimp only []
    rw [if_neg (by simp [hs])]

/-- C9 witness: joining a missing room, a started room, and a lobby
room. -/
theorem claim9_witness :
    joinRoom [] "r1" "s9" "carol" = ([], .roomNotFound) ∧
    joinRoom demoRegistry "r1" "s9" "carol" =
      (demoRegistry, .gameAlreadyStarted) ∧
    joinRoom demoLobbyRegistry "r1" "s9" "carol" =
      (setRoom demoLobbyRegistry "r1"
        { demoLobby with
            players := demoLobby.players ++ [⟨"s9", "carol", 0⟩] },
       .joined) :=
  ⟨(claim9_join [] "r1" "s9" "carol").1 (by decide),
   (claim9_join demoRegistry "r1" "s9" "carol").2.1 demoStarted
      (by decide) (by decide),
   (claim9_join demoLobbyRegistry "r1" "s9" "carol").2.2 demoLobby
      (by decide) (by decide)⟩

/-- C10: a `startGame` or `submitPlace` from a connection bound to no
room, or bound to an identifier absent from the registry, silently does
nothing: the registry is unchanged and no event is emitted to anyone,
including the sender. -/
theorem claim10_unbound_noop (isValid : String → Bool) (rooms : Registry)
    (orid : Option String) (sid place : String) (now : Nat)
    (h : orid.bind (lookupRoom rooms) = none) :
    handleStartGame rooms orid = ⟨rooms, []⟩ ∧
    handleSubmitPlace isValid rooms orid sid place now = ⟨rooms, []⟩ := by
  cases orid with
  | none => exact ⟨rfl, rfl⟩
  | some rid =>
    have hlk : lookupRoom rooms rid = none := by simpa using h
    constructor
    · unfold handleStartGame
      dsimp only []
      split_ifs with he
      · rfl
      · rw [hlk]
    · unfold handleSubmitPlace
      dsimp only []
      split_ifs with he
      · rfl
      · rw [hlk]

/-- C10 witness: "zz" names no room in the demo registry, so both events
are silent no-ops. -/
theorem claim10_witness :
    handleStartGame demoRegistry (some "zz") = ⟨demoRegistry, []⟩ ∧
    handleSubmitPlace demoValid demoRegistry (some "zz") "s1" "Argentina"
        7 = ⟨demoRegistry, []⟩ :=
  claim10_unbound_noop demoValid demoRegistry (some "zz") "s1" "Argentina" 7
    (by decide)

end Atlas
